import Mathlib

/-!
Shallow embedding of the resilience / scaling control plane of
`backend/app/scaling.py` (classes `CircuitBreaker`, `LoadBalancer`,
`RateLimiter`, `SessionManager`, `CacheManager`, and the free function
`health_check`), together with theorems settling the specification
claims about it.

Modelling conventions:
  * Wall-clock timestamps (`datetime.utcnow().timestamp()`) are modelled
    as integers (seconds).  The source uses real-valued timestamps, but
    every claim and every concrete scenario only needs integer instants.
  * Python `dict` is modelled as an association list with
    insertion-order-preserving overwrite (`dictSet`) and `dictGet`.
  * Redis operations used by the source (`setex`/`get`, sorted-set
    `zremrangebyscore`/`zcard`/`zadd`, `expire`) are modelled from their
    documented semantics, since Redis is an external dependency.
  * Exceptions are modelled as explicit result constructors.
-/

namespace ScalingModel

/-- Python `dict` lookup: first matching key wins (keys are unique in a
real dict; `dictSet` preserves that). -/
def dictGet {β : Type} : List (String × β) → String → Option β
  | [], _ => none
  | (k', v) :: rest, k => if k' = k then some v else dictGet rest k

/-- Python `dict` assignment `d[k] = v`: overwrite in place (keeping the
key's position) or append a new key. -/
def dictSet {β : Type} : List (String × β) → String → β → List (String × β)
  | [], k, v => [(k, v)]
  | (k', v') :: rest, k, v =>
      if k' = k then (k, v) :: rest else (k', v') :: dictSet rest k v

/-- Python `dict.pop(k, None)`: drop every entry with the key. -/
def dictPop {β : Type} (d : List (String × β)) (k : String) : List (String × β) :=
  d.filter (fun p => ¬ p.1 = k)

theorem dictGet_dictSet_self {β : Type} (d : List (String × β)) (k : String) (v : β) :
    dictGet (dictSet d k v) k = some v := by
  induction d with
  | nil => simp [dictGet, dictSet]
  | cons p rest ih =>
      obtain ⟨k', v'⟩ := p
      by_cases h : k' = k
      · simp [dictGet, dictSet, h]
      · simp [dictGet, dictSet, h, ih]

theorem dictGet_dictSet_ne {β : Type} (d : List (String × β)) (k k' : String) (v : β)
    (h : k ≠ k') : dictGet (dictSet d k v) k' = dictGet d k' := by
  induction d with
  | nil => simp [dictGet, dictSet, h]
  | cons p rest ih =>
      obtain ⟨k0, v0⟩ := p
      by_cases h0 : k0 = k
      · subst h0
        simp [dictGet, dictSet, h]
      · simp only [dictSet, if_neg h0]
        by_cases h1 : k0 = k'
        · simp [dictGet, h1]
        · simp [dictGet, h1, ih]

/-! ## Circuit breaker (`CircuitBreaker`, scaling.py lines 129-164) -/

/-- The three states of `CircuitBreaker.state` ("CLOSED", "OPEN", "HALF_OPEN"). -/
inductive BState where
  | closed
  | opened
  | halfOpen
deriving DecidableEq, Repr

/-- Outcome of the protected coroutine `func`: it returns normally, raises
the configured `expected_exception`, or raises some other exception (which
the breaker's `except self.expected_exception` clause does not catch). -/
inductive Outcome where
  | ok
  | err
  | other
deriving DecidableEq, Repr

/-- Observable result of `CircuitBreaker.call`: either the call is rejected
up front by `raise Exception("Circuit breaker is OPEN")` without invoking
`func`, or `func` is invoked and its outcome propagates (the return value,
or the re-raised exception). -/
inductive CallResult where
  | rejected
  | passed (o : Outcome)
deriving DecidableEq, Repr

structure CircuitBreaker where
  failure_threshold : ℕ
  recovery_timeout : ℤ
  failure_count : ℕ
  last_failure_time : Option ℤ
  state : BState
deriving DecidableEq, Repr

/-- `CircuitBreaker.__init__`. -/
def CircuitBreaker.init (threshold : ℕ) (timeout : ℤ) : CircuitBreaker :=
  { failure_threshold := threshold
    recovery_timeout := timeout
    failure_count := 0
    last_failure_time := none
    state := .closed }

/-- The body of `CircuitBreaker.call` after the OPEN gate: run `func`
(outcome `o`) and update the state as the `try`/`except` does. -/
def CircuitBreaker.runProtected (cb : CircuitBreaker) (now : ℤ) (o : Outcome) :
    CallResult × CircuitBreaker :=
  match o with
  | .ok =>
      if cb.state = .halfOpen then
        (.passed .ok, { cb with state := .closed, failure_count := 0 })
      else
        (.passed .ok, cb)
  | .err =>
      let fc := cb.failure_count + 1
      let cb' := { cb with failure_count := fc, last_failure_time := some now }
      if fc ≥ cb.failure_threshold then
        (.passed .err, { cb' with state := .opened })
      else
        (.passed .err, cb')
  | .other =>
      -- not caught by `except self.expected_exception`: propagates with no
      -- state change
      (.passed .other, cb)

/-- `CircuitBreaker.call`, at wall-clock time `now`, where the protected
coroutine would produce outcome `o` if invoked.  In the OPEN state with
`last_failure_time = None` the Python code would raise a `TypeError`
(`None` minus a float); that configuration is unreachable because OPEN is
only ever entered from the failure branch, which sets `last_failure_time`;
we model it as the rejection the gate performs. -/
def CircuitBreaker.call (cb : CircuitBreaker) (now : ℤ) (o : Outcome) :
    CallResult × CircuitBreaker :=
  match cb.state with
  | .opened =>
      match cb.last_failure_time with
      | some t =>
          if now - t > cb.recovery_timeout then
            CircuitBreaker.runProtected { cb with state := .halfOpen } now o
          else
            (.rejected, cb)
      | none => (.rejected, cb)
  | _ => CircuitBreaker.runProtected cb now o

/-- Apply `k` consecutive failing calls (the protected operation raises the
expected exception each time), the `i`-th at time `f i`. -/
def CircuitBreaker.failN (cb : CircuitBreaker) (f : ℕ → ℤ) : ℕ → CircuitBreaker
  | 0 => cb
  | k + 1 => ((CircuitBreaker.failN cb f k).call (f k) .err).2

/-- Fold a list of timed call outcomes through the breaker. -/
def CircuitBreaker.applyCalls (cb : CircuitBreaker) : List (ℤ × Outcome) → CircuitBreaker
  | [] => cb
  | (t, o) :: rest => CircuitBreaker.applyCalls (cb.call t o).2 rest

/-- Number of expected-exception outcomes in a call list. -/
def countFails (l : List (ℤ × Outcome)) : ℕ :=
  (l.filter (fun p => p.2 = Outcome.err)).length

/-! ## Load balancer (`LoadBalancer`, scaling.py lines 47-127) -/

/-- The instance record built by `LoadBalancer.register_instance`.
`active_connections` is a key the repository never writes; reads go
through `.get("active_connections", 0)`. -/
structure Instance where
  id : String
  host : String
  port : ℕ
  weight : ℕ
  url : String
  registered_at : ℤ
  last_health_check : Option ℤ
  healthy : Bool
  active_connections : Option ℕ
deriving DecidableEq, Repr

structure LoadBalancer where
  instances : List Instance
  current_index : ℕ
  health_status : List (String × Bool)
deriving DecidableEq, Repr

/-- `LoadBalancer.__init__` (the `config` field plays no role in the
modelled methods). -/
def LoadBalancer.init : LoadBalancer :=
  { instances := [], current_index := 0, health_status := [] }

/-- The f-string `f"http://{host}:{port}"`. -/
def mkUrl (host : String) (port : ℕ) : String :=
  "http://" ++ host ++ ":" ++ toString port

/-- `LoadBalancer.register_instance`: build the instance dict, *append* it
to `self.instances`, and set `self.health_status[instance_id] = True`. -/
def LoadBalancer.register_instance (lb : LoadBalancer) (instance_id host : String)
    (port : ℕ) (weight : ℕ) (now : ℤ) : LoadBalancer :=
  let inst : Instance :=
    { id := instance_id
      host := host
      port := port
      weight := weight
      url := mkUrl host port
      registered_at := now
      last_health_check := none
      healthy := true
      active_connections := none }
  { lb with
      instances := lb.instances ++ [inst]
      health_status := dictSet lb.health_status instance_id true }

/-- `LoadBalancer.deregister_instance`. -/
def LoadBalancer.deregister_instance (lb : LoadBalancer) (instance_id : String) :
    LoadBalancer :=
  { lb with
      instances := lb.instances.filter (fun i => ¬ i.id = instance_id)
      health_status := dictPop lb.health_status instance_id }

/-- `LoadBalancer.get_healthy_instances`:
`[inst for inst in self.instances if self.health_status.get(inst["id"], False)]`. -/
def LoadBalancer.get_healthy_instances (lb : LoadBalancer) : List Instance :=
  lb.instances.filter (fun i => (dictGet lb.health_status i.id).getD false)

/-- The `weighted` branch's cumulative-weight scan:
starting from accumulated weight `cw`, return the first instance whose
cumulative weight reaches `rand`, or `none` if the loop falls through. -/
def weightedPick (rand : ℚ) : ℚ → List Instance → Option Instance
  | _, [] => none
  | cw, x :: xs =>
      let cw' := cw + (x.weight : ℚ)
      if rand ≤ cw' then some x else weightedPick rand cw' xs

/-- Python `min(healthy, key=lambda x: x.get("active_connections", 0))`:
first element with the strictly smallest key (ties keep the earlier one). -/
def minByConnections : Instance → List Instance → Instance
  | best, [] => best
  | best, x :: xs =>
      if (x.active_connections.getD 0) < (best.active_connections.getD 0) then
        minByConnections x xs
      else
        minByConnections best xs

/-- `LoadBalancer.select_instance`.  `rand` models the draw
`random.uniform(0, total_weight)` of the `weighted` branch (unused by the
other algorithms).  Returns the selected instance (or `None` when no
healthy instance exists) together with the updated balancer. -/
def LoadBalancer.select_instance (lb : LoadBalancer) (algorithm : String) (rand : ℚ) :
    Option Instance × LoadBalancer :=
  match h : lb.get_healthy_instances with
  | [] => (none, lb)
  | first :: rest =>
      let healthy := first :: rest
      if algorithm = "round_robin" then
        (some (healthy.get ⟨lb.current_index % healthy.length,
            Nat.mod_lt _ (by simp [healthy])⟩),
         { lb with current_index := lb.current_index + 1 })
      else if algorithm = "weighted" then
        match weightedPick rand 0 healthy with
        | some inst => (some inst, lb)
        | none => (some first, lb)   -- loop fell through to `return healthy_instances[0]`
      else if algorithm = "least_connections" then
        (some (minByConnections first rest), lb)
      else
        (some first, lb)

/-- A round-robin selection (`select_instance()` with the default
algorithm; the random draw is irrelevant). -/
def LoadBalancer.selectRR (lb : LoadBalancer) : Option Instance × LoadBalancer :=
  lb.select_instance "round_robin" 0

/-- The balancer state after `k` consecutive round-robin selections. -/
def LoadBalancer.rrIter (lb : LoadBalancer) : ℕ → LoadBalancer
  | 0 => lb
  | k + 1 => (LoadBalancer.rrIter lb k).selectRR.2

/-- The instance returned by the `k`-th (0-based) round-robin selection. -/
def LoadBalancer.rrOut (lb : LoadBalancer) (k : ℕ) : Option Instance :=
  (LoadBalancer.rrIter lb k).selectRR.1

/-- The list of results of `n` consecutive round-robin selections. -/
def LoadBalancer.rrOuts (lb : LoadBalancer) (n : ℕ) : List (Option Instance) :=
  (List.range n).map lb.rrOut

/-- Outcome of one HTTP liveness probe `GET {url}/health`: a response with
some status code, or an exception (connection error / timeout). -/
inductive ProbeResult where
  | status (code : ℕ)
  | failure
deriving DecidableEq, Repr

/-- `response.status == 200` on the success path; an exception marks the
instance unhealthy. -/
def probeOk : ProbeResult → Bool
  | .status c => c = 200
  | .failure => false

/-- One loop iteration of `LoadBalancer.health_check` for one instance:
on a response, record `status == 200` and stamp `last_health_check`; on an
exception, record `False` (the stamp line is skipped). -/
def probeOne (probe : String → ProbeResult) (now : ℤ) (inst : Instance)
    (hs : List (String × Bool)) : Instance × List (String × Bool) :=
  match probe (inst.url ++ "/health") with
  | .status c => ({ inst with last_health_check := some now }, dictSet hs inst.id (c = 200))
  | .failure => (inst, dictSet hs inst.id false)

/-- The probe loop over the instance list, threading `health_status`. -/
def runHealthChecks (probe : String → ProbeResult) (now : ℤ) :
    List Instance → List (String × Bool) → List Instance × List (String × Bool)
  | [], hs => ([], hs)
  | i :: rest, hs =>
      let p := probeOne probe now i hs
      let q := runHealthChecks probe now rest p.2
      (p.1 :: q.1, q.2)

/-- `LoadBalancer.health_check`: probe every registered instance.  `probe`
gives, for each probed URL, the outcome of the HTTP GET. -/
def LoadBalancer.health_check (lb : LoadBalancer) (probe : String → ProbeResult)
    (now : ℤ) : LoadBalancer :=
  let p := runHealthChecks probe now lb.instances lb.health_status
  { lb with instances := p.1, health_status := p.2 }

/-! ## Rate limiter (`RateLimiter`, scaling.py lines 166-192)

The per-key Redis sorted set is modelled as a list of scores (member
`str(current_time)` and score `current_time` coincide, so member
uniqueness is uniqueness of the timestamp value) plus the key's expiry
deadline set by `EXPIRE`. -/

structure RLRecord where
  scores : List ℤ
  expires_at : Option ℤ
deriving DecidableEq, Repr

/-- A Redis keyspace holding one sorted set per rate-limit key. -/
def RLStore := List (String × RLRecord)

/-- The record Redis serves for `key` at time `now`: a key whose expiry
deadline has been reached behaves as absent. -/
def liveRecord (store : RLStore) (key : String) (now : ℤ) : RLRecord :=
  match dictGet store key with
  | some r =>
      match r.expires_at with
      | some e => if e ≤ now then ⟨[], none⟩ else r
      | none => r
  | none => ⟨[], none⟩

/-- `ZADD key {str(t): t}`: sorted-set member insert (no duplicate member). -/
def zaddScore (scores : List ℤ) (t : ℤ) : List ℤ :=
  if t ∈ scores then scores else scores ++ [t]

/-- `RateLimiter.is_allowed(key)` at time `now`, with configured
`window_size` `W` and `max_requests` `C`:
`ZREMRANGEBYSCORE key 0 (now - W)` (removes scores in the closed interval
`[0, now - W]`), `ZCARD`, reject if the count reaches the ceiling,
otherwise `ZADD` the current timestamp and `EXPIRE key W`. -/
def RateLimiter.is_allowed (store : RLStore) (key : String) (now W : ℤ) (C : ℕ) :
    Bool × RLStore :=
  let window_start := now - W
  let r := liveRecord store key now
  let pruned := r.scores.filter (fun s => ¬ (0 ≤ s ∧ s ≤ window_start))
  if C ≤ pruned.length then
    (false, dictSet store key ⟨pruned, r.expires_at⟩)
  else
    (true, dictSet store key ⟨zaddScore pruned now, some (now + W)⟩)

/-- Fold a list of request times through `is_allowed`, collecting the
admission decisions. -/
def RateLimiter.runCalls (key : String) (W : ℤ) (C : ℕ) :
    RLStore → List ℤ → List Bool
  | _, [] => []
  | store, t :: ts =>
      let r := RateLimiter.is_allowed store key t W C
      r.1 :: RateLimiter.runCalls key W C r.2 ts

/-! ## Session / cache stores (`SessionManager`, `CacheManager`,
scaling.py lines 194-240)

Both are `SETEX`/`GET` over Redis.  The stored payload is
`json.dumps(value)`; `json.loads` of it returns the value back, and the
dump of any value is a non-empty string, so the `if data else None`
truthiness test is exactly key presence.  We therefore keep the value
itself (type parameter `α`) in the modelled store. -/

structure KVEntry (α : Type) where
  value : α
  expires_at : ℤ
deriving DecidableEq, Repr

/-- `GET k` at time `now`: a key whose TTL has fully elapsed is a miss. -/
def kvGet {α : Type} (store : List (String × KVEntry α)) (k : String) (now : ℤ) :
    Option α :=
  match dictGet store k with
  | some e => if now < e.expires_at then some e.value else none
  | none => none

/-- `SETEX k ttl v` at time `now`: store `v` and (re)set the key's TTL. -/
def kvSetex {α : Type} (store : List (String × KVEntry α)) (k : String) (ttl : ℤ)
    (v : α) (now : ℤ) : List (String × KVEntry α) :=
  dictSet store k ⟨v, now + ttl⟩

/-- `CacheManager.set(key, value, ttl)`. -/
def CacheManager.set {α : Type} (store : List (String × KVEntry α)) (key : String)
    (value : α) (ttl : ℤ) (now : ℤ) : List (String × KVEntry α) :=
  kvSetex store key ttl value now

/-- `CacheManager.get(key)`. -/
def CacheManager.get {α : Type} (store : List (String × KVEntry α)) (key : String)
    (now : ℤ) : Option α :=
  kvGet store key now

/-- `SessionManager.create_session(session_id, data, ttl)`: a `SETEX`
under the namespaced key `f"session:{session_id}"`. -/
def SessionManager.create_session {α : Type} (store : List (String × KVEntry α))
    (session_id : String) (data : α) (ttl : ℤ) (now : ℤ) :
    List (String × KVEntry α) :=
  kvSetex store ("session:" ++ session_id) ttl data now

/-- `SessionManager.get_session(session_id)`. -/
def SessionManager.get_session {α : Type} (store : List (String × KVEntry α))
    (session_id : String) (now : ℤ) : Option α :=
  kvGet store ("session:" ++ session_id) now

/-! ## Aggregate health check (free function `health_check`,
scaling.py lines 392-440) -/

/-- What `psutil.virtual_memory()` reports. -/
structure MemInfo where
  total : ℕ
  available : ℕ
  percent : ℚ
deriving DecidableEq, Repr

/-- Outcome of the database section of the aggregate check:
`DatabasePool(...)` or the awaited `health_check()` raises (`raised`;
e.g. `DATABASE_URL` unset makes `create_engine` throw), or
`DatabasePool.health_check()` returns `True` (`ok`) or `False` (`failed`
— it converts connection failures into a boolean, never raising). -/
inductive DbProbe where
  | raised
  | ok
  | failed
deriving DecidableEq, Repr

/-- The `status` field computed by the aggregate `health_check` coroutine,
translated statement by statement: start `"healthy"`; the database
`except` branch sets `"unhealthy"` only when the section *raises*; a
missing client or a failed `PING` sets `"unhealthy"`; finally, when
`psutil` is importable and memory utilisation exceeds 90, the status is
overwritten with `"degraded"`. -/
def aggregateStatus (db : DbProbe) (redisPresent redisPingOk : Bool)
    (memory : Option MemInfo) : String :=
  let s1 := if db = .raised then "unhealthy" else "healthy"
  let s2 :=
    if redisPresent then
      (if redisPingOk then s1 else "unhealthy")
    else
      "unhealthy"
  match memory with
  | some m => if m.percent > 90 then "degraded" else s2
  | none => s2

/-- The `checks.database` boolean of the aggregate report. -/
def databaseCheckValue : DbProbe → Bool
  | .raised => false
  | .ok => true
  | .failed => false

/-! ## Circuit breaker lemmas -/

theorem call_closed_ok (cb : CircuitBreaker) (now : ℤ) (hs : cb.state = .closed) :
    cb.call now .ok = (.passed .ok, cb) := by
  obtain ⟨T, R, c, l, s⟩ := cb
  simp only at hs
  subst hs
  simp [CircuitBreaker.call, CircuitBreaker.runProtected]

theorem call_closed_other (cb : CircuitBreaker) (now : ℤ) (hs : cb.state = .closed) :
    cb.call now .other = (.passed .other, cb) := by
  obtain ⟨T, R, c, l, s⟩ := cb
  simp only at hs
  subst hs
  simp [CircuitBreaker.call, CircuitBreaker.runProtected]

theorem call_closed_err_lt (cb : CircuitBreaker) (now : ℤ) (hs : cb.state = .closed)
    (h : cb.failure_count + 1 < cb.failure_threshold) :
    cb.call now .err =
      (.passed .err,
       { cb with failure_count := cb.failure_count + 1, last_failure_time := some now }) := by
  obtain ⟨T, R, c, l, s⟩ := cb
  simp only at hs h
  subst hs
  simp [CircuitBreaker.call, CircuitBreaker.runProtected, Nat.not_le.mpr h]

theorem call_closed_err_ge (cb : CircuitBreaker) (now : ℤ) (hs : cb.state = .closed)
    (h : cb.failure_threshold ≤ cb.failure_count + 1) :
    cb.call now .err =
      (.passed .err,
       { cb with
           failure_count := cb.failure_count + 1
           last_failure_time := some now
           state := .opened }) := by
  obtain ⟨T, R, c, l, s⟩ := cb
  simp only at hs h
  subst hs
  simp [CircuitBreaker.call, CircuitBreaker.runProtected, h]

theorem call_open_within (cb : CircuitBreaker) (t now : ℤ) (o : Outcome)
    (hs : cb.state = .opened) (hl : cb.last_failure_time = some t)
    (h : now - t ≤ cb.recovery_timeout) :
    cb.call now o = (.rejected, cb) := by
  obtain ⟨T, R, c, l, s⟩ := cb
  simp only at hs hl h
  subst hs
  subst hl
  simp [CircuitBreaker.call, not_lt.mpr h]

theorem call_open_after (cb : CircuitBreaker) (t now : ℤ) (o : Outcome)
    (hs : cb.state = .opened) (hl : cb.last_failure_time = some t)
    (h : cb.recovery_timeout < now - t) :
    (cb.call now o).1 = .passed o := by
  obtain ⟨T, R, c, l, s⟩ := cb
  simp only at hs hl h
  subst hs
  subst hl
  cases o
  · simp [CircuitBreaker.call, CircuitBreaker.runProtected, h]
  · simp only [CircuitBreaker.call, CircuitBreaker.runProtected, if_pos h]
    split <;> simp
  · simp [CircuitBreaker.call, CircuitBreaker.runProtected, h]

theorem call_open_after_ok (cb : CircuitBreaker) (t now : ℤ)
    (hs : cb.state = .opened) (hl : cb.last_failure_time = some t)
    (h : cb.recovery_timeout < now - t) :
    cb.call now .ok =
      (.passed .ok, { cb with state := .closed, failure_count := 0 }) := by
  obtain ⟨T, R, c, l, s⟩ := cb
  simp only at hs hl h
  subst hs
  subst hl
  simp [CircuitBreaker.call, CircuitBreaker.runProtected, h]

/-- Invariant along a streak of failures that stays strictly below the
threshold: the breaker stays CLOSED and just counts. -/
theorem failN_below (T : ℕ) (R : ℤ) (f : ℕ → ℤ) :
    ∀ k, k < T →
      (CircuitBreaker.failN (CircuitBreaker.init T R) f k).state = .closed ∧
      (CircuitBreaker.failN (CircuitBreaker.init T R) f k).failure_count = k ∧
      (CircuitBreaker.failN (CircuitBreaker.init T R) f k).failure_threshold = T ∧
      (CircuitBreaker.failN (CircuitBreaker.init T R) f k).recovery_timeout = R := by
  intro k
  induction k with
  | zero => intro _; simp [CircuitBreaker.failN, CircuitBreaker.init]
  | succ k ih =>
      intro hk
      obtain ⟨hs, hc, ht, hr⟩ := ih (Nat.lt_of_succ_lt hk)
      have hlt : (CircuitBreaker.failN (CircuitBreaker.init T R) f k).failure_count + 1 <
          (CircuitBreaker.failN (CircuitBreaker.init T R) f k).failure_threshold := by
        rw [hc, ht]; exact hk
      have hstep := call_closed_err_lt _ (f k) hs hlt
      simp only [CircuitBreaker.failN, hstep]
      refine ⟨hs, ?_, ht, hr⟩
      simp [hc]

/-- After exactly `T ≥ 1` consecutive expected-exception failures from a
fresh breaker, the breaker is the fully determined OPEN record. -/
theorem failN_trips (T : ℕ) (R : ℤ) (f : ℕ → ℤ) (hT : 1 ≤ T) :
    CircuitBreaker.failN (CircuitBreaker.init T R) f T =
      { failure_threshold := T
        recovery_timeout := R
        failure_count := T
        last_failure_time := some (f (T - 1))
        state := .opened } := by
  obtain ⟨k, rfl⟩ : ∃ k, T = k + 1 := ⟨T - 1, (Nat.succ_pred_eq_of_pos hT).symm⟩
  obtain ⟨hs, hc, ht, hr⟩ := failN_below (k + 1) R f k (Nat.lt_succ_self k)
  have hge : (CircuitBreaker.failN (CircuitBreaker.init (k + 1) R) f k).failure_threshold ≤
      (CircuitBreaker.failN (CircuitBreaker.init (k + 1) R) f k).failure_count + 1 := by
    rw [hc, ht]
  have hstep := call_closed_err_ge _ (f k) hs hge
  show ((CircuitBreaker.failN (CircuitBreaker.init (k + 1) R) f k).call (f k) .err).2 = _
  rw [hstep]
  simp [CircuitBreaker.mk.injEq, hc, ht, hr]

/-- C1: for every circuit breaker with failure threshold T ≥ 1 and recovery
timeout R, starting CLOSED: each of the T consecutive failing calls invokes
the underlying operation, after exactly T of them the state is OPEN with
failure count T, the next call while at most R seconds have passed since the
last failure is rejected without invoking the operation (the code's
`raise Exception("Circuit breaker is OPEN")`), and the first call strictly
more than R seconds after the last failure invokes the operation
(HALF_OPEN); when it succeeds the breaker is CLOSED again with failure
count 0. -/
theorem C1_circuit_breaker_trip_and_recover (T : ℕ) (R : ℤ) (f : ℕ → ℤ)
    (now now' : ℤ) (o : Outcome) (hT : 1 ≤ T)
    (hnow : now - f (T - 1) ≤ R) (hnow' : R < now' - f (T - 1)) :
    (∀ k, k < T →
        ((CircuitBreaker.failN (CircuitBreaker.init T R) f k).call (f k) .err).1
          = .passed .err)
    ∧ (CircuitBreaker.failN (CircuitBreaker.init T R) f T).state = .opened
    ∧ (CircuitBreaker.failN (CircuitBreaker.init T R) f T).failure_count = T
    ∧ (CircuitBreaker.failN (CircuitBreaker.init T R) f T).call now o
        = (.rejected, CircuitBreaker.failN (CircuitBreaker.init T R) f T)
    ∧ ((CircuitBreaker.failN (CircuitBreaker.init T R) f T).call now' .ok).1
        = .passed .ok
    ∧ ((CircuitBreaker.failN (CircuitBreaker.init T R) f T).call now' .ok).2.state
        = .closed
    ∧ ((CircuitBreaker.failN (CircuitBreaker.init T R) f T).call now' .ok).2.failure_count
        = 0 := by
  have htrip := failN_trips T R f hT
  refine ⟨?_, ?_, ?_, ?_, ?_, ?_, ?_⟩
  · intro k hk
    obtain ⟨hs, hc, ht, _⟩ := failN_below T R f k hk
    by_cases h : (CircuitBreaker.failN (CircuitBreaker.init T R) f k).failure_count + 1 <
        (CircuitBreaker.failN (CircuitBreaker.init T R) f k).failure_threshold
    · rw [call_closed_err_lt _ (f k) hs h]
    · rw [call_closed_err_ge _ (f k) hs (Nat.le_of_not_lt h)]
  · rw [htrip]
  · rw [htrip]
  · rw [htrip]
    exact call_open_within _ (f (T - 1)) now o rfl rfl hnow
  · rw [htrip]
    rw [call_open_after_ok _ (f (T - 1)) now' rfl rfl hnow']
  · rw [htrip]
    rw [call_open_after_ok _ (f (T - 1)) now' rfl rfl hnow']
  · rw [htrip]
    rw [call_open_after_ok _ (f (T - 1)) now' rfl rfl hnow']

/-- Concrete run of C1: threshold 2, timeout 60, failures at times 0 and 1,
a rejected call at time 50, and a successful recovery call at time 100. -/
theorem C1_witness :
    (1 ≤ 2 ∧ (50 : ℤ) - 1 ≤ 60 ∧ (60 : ℤ) < 100 - 1)
    ∧ ((∀ k, k < 2 →
          ((CircuitBreaker.failN (CircuitBreaker.init 2 60) (fun i => (i : ℤ)) k).call
              ((fun i => (i : ℤ)) k) .err).1 = .passed .err)
       ∧ (CircuitBreaker.failN (CircuitBreaker.init 2 60) (fun i => (i : ℤ)) 2).state
           = .opened
       ∧ (CircuitBreaker.failN (CircuitBreaker.init 2 60) (fun i => (i : ℤ)) 2).failure_count
           = 2
       ∧ (CircuitBreaker.failN (CircuitBreaker.init 2 60) (fun i => (i : ℤ)) 2).call 50 .ok
           = (.rejected, CircuitBreaker.failN (CircuitBreaker.init 2 60) (fun i => (i : ℤ)) 2)
       ∧ ((CircuitBreaker.failN (CircuitBreaker.init 2 60) (fun i => (i : ℤ)) 2).call 100 .ok).1
           = .passed .ok
       ∧ ((CircuitBreaker.failN (CircuitBreaker.init 2 60) (fun i => (i : ℤ)) 2).call 100 .ok).2.state
           = .closed
       ∧ ((CircuitBreaker.failN (CircuitBreaker.init 2 60) (fun i => (i : ℤ)) 2).call 100 .ok).2.failure_count
           = 0) :=
  ⟨⟨by decide, by decide, by decide⟩,
   C1_circuit_breaker_trip_and_recover 2 60 (fun i => (i : ℤ)) 50 100 .ok
     (by decide) (by decide) (by decide)⟩

/-- C2: a breaker in the OPEN state rejects every call made while the time
since the last failure is still at most the recovery timeout — the
underlying operation is not invoked and the state does not change (the
code's `raise Exception("Circuit breaker is OPEN")`, the design's
`CircuitOpenError`) — and the first call strictly after the recovery
timeout is allowed through to the underlying operation (HALF_OPEN) instead
of being rejected. -/
theorem C2_open_rejects_until_timeout (cb : CircuitBreaker) (t now now' : ℤ)
    (o o' : Outcome) (hs : cb.state = .opened) (hl : cb.last_failure_time = some t)
    (hwithin : now - t ≤ cb.recovery_timeout)
    (hafter : cb.recovery_timeout < now' - t) :
    cb.call now o = (.rejected, cb) ∧ (cb.call now' o').1 = .passed o' :=
  ⟨call_open_within cb t now o hs hl hwithin,
   call_open_after cb t now' o' hs hl hafter⟩

/-- Concrete run of C2 on an OPEN breaker (threshold 1, timeout 60, last
failure at time 0): a call at time 60 is rejected unchanged, a call at
time 61 reaches the operation. -/
theorem C2_witness :
    ((⟨1, 60, 1, some 0, .opened⟩ : CircuitBreaker).state = .opened
      ∧ (⟨1, 60, 1, some 0, .opened⟩ : CircuitBreaker).last_failure_time = some 0
      ∧ (60 : ℤ) - 0 ≤ (⟨1, 60, 1, some 0, .opened⟩ : CircuitBreaker).recovery_timeout
      ∧ (⟨1, 60, 1, some 0, .opened⟩ : CircuitBreaker).recovery_timeout < (61 : ℤ) - 0)
    ∧ ((⟨1, 60, 1, some 0, .opened⟩ : CircuitBreaker).call 60 .err
        = (.rejected, ⟨1, 60, 1, some 0, .opened⟩)
      ∧ ((⟨1, 60, 1, some 0, .opened⟩ : CircuitBreaker).call 61 .ok).1 = .passed .ok) :=
  ⟨⟨by decide, by decide, by decide, by decide⟩,
   C2_open_rejects_until_timeout ⟨1, 60, 1, some 0, .opened⟩ 0 60 61 .err .ok
     (by decide) (by decide) (by decide) (by decide)⟩

theorem applyCalls_append (cb : CircuitBreaker) (L : List (ℤ × Outcome)) (x : ℤ × Outcome) :
    CircuitBreaker.applyCalls cb (L ++ [x]) =
      ((CircuitBreaker.applyCalls cb L).call x.1 x.2).2 := by
  induction L generalizing cb with
  | nil => simp [CircuitBreaker.applyCalls]
  | cons y rest ih =>
      obtain ⟨t, o⟩ := y
      simp [CircuitBreaker.applyCalls, ih]

/-- While the cumulative number of expected failures stays strictly below
the threshold, a CLOSED breaker stays CLOSED and its failure count is the
running failure total: successes (and uncounted exceptions) are frame-
preserving. -/
theorem applyCalls_closed (L : List (ℤ × Outcome)) :
    ∀ cb : CircuitBreaker, cb.state = .closed →
      cb.failure_count + countFails L < cb.failure_threshold →
      (CircuitBreaker.applyCalls cb L).state = .closed ∧
      (CircuitBreaker.applyCalls cb L).failure_count = cb.failure_count + countFails L ∧
      (CircuitBreaker.applyCalls cb L).failure_threshold = cb.failure_threshold := by
  induction L with
  | nil => intro cb hs _; simpa [CircuitBreaker.applyCalls, countFails] using hs
  | cons x rest ih =>
      intro cb hs hbound
      obtain ⟨t, o⟩ := x
      cases o with
      | ok =>
          have hcount : countFails ((t, Outcome.ok) :: rest) = countFails rest := by
            simp [countFails]
          rw [hcount] at hbound
          have := ih cb hs hbound
          simpa [CircuitBreaker.applyCalls, call_closed_ok cb t hs, hcount] using this
      | other =>
          have hcount : countFails ((t, Outcome.other) :: rest) = countFails rest := by
            simp [countFails]
          rw [hcount] at hbound
          have := ih cb hs hbound
          simpa [CircuitBreaker.applyCalls, call_closed_other cb t hs, hcount] using this
      | err =>
          have hcount : countFails ((t, Outcome.err) :: rest) = countFails rest + 1 := by
            simp [countFails, List.filter]
          rw [hcount] at hbound
          have hlt : cb.failure_count + 1 < cb.failure_threshold := by omega
          have hstep := call_closed_err_lt cb t hs hlt
          have := ih { cb with failure_count := cb.failure_count + 1,
                               last_failure_time := some t } hs (by simp; omega)
          simp only [CircuitBreaker.applyCalls, hstep] at this ⊢
          obtain ⟨h1, h2, h3⟩ := this
          refine ⟨h1, ?_, by simpa using h3⟩
          rw [h2]
          simp [hcount]
          omega

/-- C10: (frame) a successful call against a CLOSED breaker returns the
result and leaves the breaker record—failure count, last failure time and
state—completely unchanged; consequently successes never reset the counter
while CLOSED, and a threshold's worth of failures interleaved with
successes (the list `L` followed by one more failure, `countFails L + 1 =
T` failures in total) still drives a fresh breaker to OPEN with failure
count T. -/
theorem C10_closed_success_frame_and_interleaved_trip (T : ℕ) (R : ℤ)
    (L : List (ℤ × Outcome)) (t : ℤ) (hL : countFails L + 1 = T) :
    (∀ (cb : CircuitBreaker) (now : ℤ), cb.state = .closed →
        cb.call now .ok = (.passed .ok, cb))
    ∧ (CircuitBreaker.applyCalls (CircuitBreaker.init T R) (L ++ [(t, .err)])).state
        = .opened
    ∧ (CircuitBreaker.applyCalls (CircuitBreaker.init T R) (L ++ [(t, .err)])).failure_count
        = T := by
  have hrun := applyCalls_closed L (CircuitBreaker.init T R) rfl
    (by simp [CircuitBreaker.init]; omega)
  obtain ⟨hs, hc, ht⟩ := hrun
  have hge : (CircuitBreaker.applyCalls (CircuitBreaker.init T R) L).failure_threshold ≤
      (CircuitBreaker.applyCalls (CircuitBreaker.init T R) L).failure_count + 1 := by
    rw [hc, ht]
    simp [CircuitBreaker.init]
    omega
  have hstep := call_closed_err_ge _ t hs hge
  refine ⟨fun cb now h => call_closed_ok cb now h, ?_, ?_⟩
  · rw [applyCalls_append, hstep]
  · rw [applyCalls_append, hstep]
    show (CircuitBreaker.applyCalls (CircuitBreaker.init T R) L).failure_count + 1 = T
    rw [hc]
    have h0 : (CircuitBreaker.init T R).failure_count = 0 := rfl
    rw [h0]
    omega

/-! ## Load balancer lemmas -/

theorem get_healthy_set_index (lb : LoadBalancer) (n : ℕ) :
    ({ lb with current_index := n } : LoadBalancer).get_healthy_instances
      = lb.get_healthy_instances := rfl

theorem selectRR_of_ne (lb : LoadBalancer) (h : lb.get_healthy_instances ≠ []) :
    lb.selectRR =
      (lb.get_healthy_instances[lb.current_index % lb.get_healthy_instances.length]?,
       { lb with current_index := lb.current_index + 1 }) := by
  unfold LoadBalancer.selectRR LoadBalancer.select_instance
  split
  · rename_i h0
    exact absurd h0 h
  · rename_i first rest h0
    have hb : lb.current_index % (first :: rest).length < (first :: rest).length :=
      Nat.mod_lt _ (by simp)
    simp only [reduceIte]
    rw [h0]
    simp [List.getElem?_eq_getElem hb, List.get_eq_getElem]

theorem rrIter_eq (lb : LoadBalancer) (h : lb.get_healthy_instances ≠ []) :
    ∀ k, lb.rrIter k = { lb with current_index := lb.current_index + k } := by
  intro k
  induction k with
  | zero =>
      show lb = _
      simp
  | succ k ih =>
      show (lb.rrIter k).selectRR.2 = _
      rw [ih]
      rw [selectRR_of_ne { lb with current_index := lb.current_index + k }
        (by rw [get_healthy_set_index]; exact h)]
      simp [Nat.add_assoc]

theorem rrOut_eq (lb : LoadBalancer) (h : lb.get_healthy_instances ≠ []) (k : ℕ) :
    lb.rrOut k =
      lb.get_healthy_instances[(lb.current_index + k) %
        lb.get_healthy_instances.length]? := by
  show (lb.rrIter k).selectRR.1 = _
  rw [rrIter_eq lb h k]
  rw [selectRR_of_ne { lb with current_index := lb.current_index + k }
    (by rw [get_healthy_set_index]; exact h)]
  rfl

/-- C3: with a fixed non-empty healthy set, N consecutive round-robin
selections (N the size of the healthy set) return exactly the healthy
instances in registration order rotated to the current cursor position —
so each healthy instance is returned exactly once per N consecutive calls,
none duplicated, none skipped. -/
theorem C3_round_robin_cycle (lb : LoadBalancer)
    (h : lb.get_healthy_instances ≠ []) :
    lb.rrOuts lb.get_healthy_instances.length
      = (lb.get_healthy_instances.rotate
          (lb.current_index % lb.get_healthy_instances.length)).map some
    ∧ (lb.rrOuts lb.get_healthy_instances.length).Perm
        (lb.get_healthy_instances.map some) := by
  have hlen : 0 < lb.get_healthy_instances.length := List.length_pos.mpr h
  have heq : lb.rrOuts lb.get_healthy_instances.length
      = (lb.get_healthy_instances.rotate
          (lb.current_index % lb.get_healthy_instances.length)).map some := by
    apply List.ext_getElem
    · simp [LoadBalancer.rrOuts]
    · intro i h1 h2
      simp only [LoadBalancer.rrOuts, List.getElem_map, List.getElem_range]
      rw [rrOut_eq lb h i]
      rw [List.getElem_rotate]
      have hidx : (lb.current_index + i) % lb.get_healthy_instances.length
          = (i + lb.current_index % lb.get_healthy_instances.length) %
              lb.get_healthy_instances.length := by
        conv_lhs => rw [Nat.add_mod]
        conv_rhs => rw [Nat.add_mod, Nat.mod_mod_of_dvd _ dvd_rfl]
        rw [Nat.add_comm]
      rw [← List.getElem?_eq_getElem, hidx]
  refine ⟨heq, ?_⟩
  rw [heq]
  exact (List.rotate_perm _ _).map some

/-- Concrete run of C3: two healthy instances, two consecutive selections
return each exactly once in registration order. -/
theorem C3_witness :
    (((LoadBalancer.init.register_instance "a" "h" 80 1 0).register_instance
        "b" "h" 81 1 0).get_healthy_instances ≠ [])
    ∧ (((LoadBalancer.init.register_instance "a" "h" 80 1 0).register_instance
          "b" "h" 81 1 0).rrOuts
          ((LoadBalancer.init.register_instance "a" "h" 80 1 0).register_instance
            "b" "h" 81 1 0).get_healthy_instances.length
        = ((((LoadBalancer.init.register_instance "a" "h" 80 1 0).register_instance
              "b" "h" 81 1 0).get_healthy_instances.rotate
              (((LoadBalancer.init.register_instance "a" "h" 80 1 0).register_instance
                "b" "h" 81 1 0).current_index %
                ((LoadBalancer.init.register_instance "a" "h" 80 1 0).register_instance
                  "b" "h" 81 1 0).get_healthy_instances.length)).map some)
       ∧ (((LoadBalancer.init.register_instance "a" "h" 80 1 0).register_instance
            "b" "h" 81 1 0).rrOuts
            ((LoadBalancer.init.register_instance "a" "h" 80 1 0).register_instance
              "b" "h" 81 1 0).get_healthy_instances.length).Perm
          ((((LoadBalancer.init.register_instance "a" "h" 80 1 0).register_instance
              "b" "h" 81 1 0).get_healthy_instances).map some)) :=
  ⟨by decide,
   C3_round_robin_cycle
     ((LoadBalancer.init.register_instance "a" "h" 80 1 0).register_instance
       "b" "h" 81 1 0) (by decide)⟩

theorem weightedPick_mem (rand : ℚ) :
    ∀ (l : List Instance) (cw : ℚ) (i : Instance),
      weightedPick rand cw l = some i → i ∈ l := by
  intro l
  induction l with
  | nil => intro cw i h; cases h
  | cons x xs ih =>
      intro cw i h
      simp only [weightedPick] at h
      split at h
      · injection h with h
        exact h ▸ List.mem_cons_self x xs
      · exact List.mem_cons_of_mem _ (ih _ i h)

theorem minByConnections_mem :
    ∀ (l : List Instance) (best : Instance),
      minByConnections best l ∈ best :: l := by
  intro l
  induction l with
  | nil => intro best; simp [minByConnections]
  | cons x xs ih =>
      intro best
      simp only [minByConnections]
      split
      · exact List.mem_cons_of_mem _ (ih x)
      · rcases List.mem_cons.mp (ih best) with h | h
        · rw [h]; exact List.mem_cons_self _ _
        · exact List.mem_cons_of_mem _ (List.mem_cons_of_mem _ h)

theorem select_cons_mem (lb : LoadBalancer) (alg : String) (rand : ℚ)
    (first : Instance) (rest : List Instance)
    (heq : lb.get_healthy_instances = first :: rest) :
    ∃ i ∈ first :: rest, (lb.select_instance alg rand).1 = some i := by
  unfold LoadBalancer.select_instance
  split
  · rename_i h0
    rw [heq] at h0
    cases h0
  · rename_i f r h0
    rw [heq] at h0
    injection h0 with h1 h2
    subst h1
    subst h2
    by_cases hrr : alg = "round_robin"
    · simp only [if_pos hrr]
      exact ⟨_, List.get_mem _ _ _, rfl⟩
    · by_cases hw : alg = "weighted"
      · simp only [if_neg hrr, if_pos hw]
        cases hwp : weightedPick rand 0 (first :: rest) with
        | some i =>
            exact ⟨i, weightedPick_mem rand _ _ i hwp, rfl⟩
        | none =>
            exact ⟨first, List.mem_cons_self _ _, rfl⟩
      · by_cases hlc : alg = "least_connections"
        · simp only [if_neg hrr, if_neg hw, if_pos hlc]
          exact ⟨minByConnections first rest, minByConnections_mem rest first, rfl⟩
        · simp only [if_neg hrr, if_neg hw, if_neg hlc]
          exact ⟨first, List.mem_cons_self _ _, rfl⟩

/-- C5: for every algorithm (and every random draw for the weighted one),
`select_instance` yields the no-healthy-instance signal (the method's
`return None`, the design's `NoHealthyInstanceError`) exactly when no
registered instance is healthy, and otherwise returns an instance drawn
from the healthy set. -/
theorem C5_select_none_iff_no_healthy (lb : LoadBalancer) (alg : String) (rand : ℚ) :
    ((lb.select_instance alg rand).1 = none ↔ lb.get_healthy_instances = [])
    ∧ (lb.get_healthy_instances ≠ [] →
        ∃ i ∈ lb.get_healthy_instances, (lb.select_instance alg rand).1 = some i) := by
  constructor
  · constructor
    · intro hnone
      by_contra hne
      obtain ⟨f, r, heq⟩ := List.exists_cons_of_ne_nil hne
      obtain ⟨i, _, hi⟩ := select_cons_mem lb alg rand f r heq
      rw [hi] at hnone
      cases hnone
    · intro hempty
      unfold LoadBalancer.select_instance
      split
      · rfl
      · rename_i f r h0
        rw [hempty] at h0
        cases h0
  · intro hne
    obtain ⟨f, r, heq⟩ := List.exists_cons_of_ne_nil hne
    obtain ⟨i, hmem, hi⟩ := select_cons_mem lb alg rand f r heq
    exact ⟨i, heq ▸ hmem, hi⟩

/-- Concrete runs of C5: with no instances at all, every algorithm returns
the none signal; with two healthy instances, the weighted algorithm
returns a healthy instance. -/
theorem C5_witness :
    ((LoadBalancer.init.select_instance "weighted" 0).1 = none)
    ∧ (((LoadBalancer.init.register_instance "a" "h" 80 1 0).register_instance
          "b" "h" 81 3 0).get_healthy_instances ≠ []
       ∧ ∃ i ∈ ((LoadBalancer.init.register_instance "a" "h" 80 1 0).register_instance
            "b" "h" 81 3 0).get_healthy_instances,
          (((LoadBalancer.init.register_instance "a" "h" 80 1 0).register_instance
            "b" "h" 81 3 0).select_instance "weighted" (1 / 2)).1 = some i) :=
  ⟨(C5_select_none_iff_no_healthy LoadBalancer.init "weighted" 0).1.mpr rfl,
   by decide,
   (C5_select_none_iff_no_healthy
     ((LoadBalancer.init.register_instance "a" "h" 80 1 0).register_instance
       "b" "h" 81 3 0) "weighted" (1 / 2)).2 (by decide)⟩

/-- C6 as stated is false: registering an already-registered id does not
replace the entry — `register_instance` unconditionally appends, so after
registering id "a" twice the registry holds two entries for "a", not
exactly one. -/
theorem C6_counterexample :
    ¬ ((((LoadBalancer.init.register_instance "a" "h1" 80 1 0).register_instance
          "a" "h2" 81 5 1).instances.filter (fun i => i.id = "a")).length = 1) := by
  decide

/-- C6 (amended): re-registering an id *appends* a second Instance entry
(last-write-wins does not hold for the entry list): the new entry carries
the new host, port and weight, sits at the end, and is marked healthy by
default; the count of entries for that id grows by one (so duplicates
accumulate); the `health_status` map does hold a single `True` entry for
the id. -/
theorem C6_register_appends (lb : LoadBalancer) (instance_id host : String)
    (port weight : ℕ) (now : ℤ) :
    (lb.register_instance instance_id host port weight now).instances
      = lb.instances ++
        [{ id := instance_id, host := host, port := port, weight := weight,
           url := mkUrl host port, registered_at := now, last_health_check := none,
           healthy := true, active_connections := none }]
    ∧ ((lb.register_instance instance_id host port weight now).instances.filter
          (fun i => i.id = instance_id)).length
        = (lb.instances.filter (fun i => i.id = instance_id)).length + 1
    ∧ dictGet (lb.register_instance instance_id host port weight now).health_status
        instance_id = some true := by
  refine ⟨rfl, ?_, dictGet_dictSet_self _ _ _⟩
  show ((lb.instances ++ [_]).filter _).length = _
  rw [List.filter_append]
  simp

theorem probeOne_snd (probe : String → ProbeResult) (now : ℤ) (i : Instance)
    (hs : List (String × Bool)) :
    (probeOne probe now i hs).2
      = dictSet hs i.id (probeOk (probe (i.url ++ "/health"))) := by
  unfold probeOne probeOk
  cases probe (i.url ++ "/health") <;> rfl

theorem runHealthChecks_snd_notmem (probe : String → ProbeResult) (now : ℤ) :
    ∀ (insts : List Instance) (hs : List (String × Bool)) (k : String),
      k ∉ insts.map (fun i => i.id) →
      dictGet (runHealthChecks probe now insts hs).2 k = dictGet hs k := by
  intro insts
  induction insts with
  | nil => intro hs k _; rfl
  | cons i rest ih =>
      intro hs k hk
      simp only [List.map_cons, List.mem_cons] at hk
      push_neg at hk
      obtain ⟨h1, h2⟩ := hk
      show dictGet (runHealthChecks probe now rest (probeOne probe now i hs).2).2 k = _
      rw [ih _ k h2, probeOne_snd, dictGet_dictSet_ne _ _ _ _ (fun hh => h1 hh.symm)]

theorem runHealthChecks_snd_mem (probe : String → ProbeResult) (now : ℤ) :
    ∀ (insts : List Instance) (hs : List (String × Bool)) (inst : Instance),
      inst ∈ insts → (insts.map (fun i => i.id)).Nodup →
      dictGet (runHealthChecks probe now insts hs).2 inst.id
        = some (probeOk (probe (inst.url ++ "/health"))) := by
  intro insts
  induction insts with
  | nil => intro hs inst h; cases h
  | cons i rest ih =>
      intro hs inst hmem hnodup
      simp only [List.map_cons, List.nodup_cons] at hnodup
      obtain ⟨hnotin, hnd⟩ := hnodup
      rcases List.mem_cons.mp hmem with rfl | hmem'
      · show dictGet (runHealthChecks probe now rest (probeOne probe now inst hs).2).2
            inst.id = _
        rw [runHealthChecks_snd_notmem probe now rest _ inst.id hnotin,
            probeOne_snd, dictGet_dictSet_self]
      · show dictGet (runHealthChecks probe now rest (probeOne probe now i hs).2).2
            inst.id = _
        exact ih _ inst hmem' hnd

/-- C8 as stated is false: a probe answered with HTTP 204 — a 2xx success
status — marks the instance *unhealthy*, because the code tests
`response.status == 200` rather than the 2xx range. -/
theorem C8_counterexample :
    (200 ≤ 204 ∧ 204 ≤ 299)
    ∧ dictGet (((LoadBalancer.init.register_instance "a" "h" 80 1 0).health_check
        (fun _ => .status 204) 5).health_status) "a" = some false := by
  decide

/-- C8 (amended): a probe whose HTTP response has status exactly 200 marks
the instance healthy, and a probe that errors/times out or returns any
status other than 200 marks it unhealthy — and an unhealthy mark removes
every instance with that id from `get_healthy_instances`. -/
theorem C8_probe_healthy_iff_status_200 (lb : LoadBalancer)
    (probe : String → ProbeResult) (now : ℤ) (inst : Instance)
    (hmem : inst ∈ lb.instances)
    (hnodup : (lb.instances.map (fun i => i.id)).Nodup) :
    dictGet (lb.health_check probe now).health_status inst.id
      = some (probeOk (probe (inst.url ++ "/health")))
    ∧ (probeOk (probe (inst.url ++ "/health")) = false →
        ∀ j ∈ (lb.health_check probe now).get_healthy_instances, j.id ≠ inst.id) := by
  have hmain : dictGet (lb.health_check probe now).health_status inst.id
      = some (probeOk (probe (inst.url ++ "/health"))) :=
    runHealthChecks_snd_mem probe now lb.instances lb.health_status inst hmem hnodup
  refine ⟨hmain, fun hfalse j hj hid => ?_⟩
  unfold LoadBalancer.get_healthy_instances at hj
  rw [List.mem_filter] at hj
  obtain ⟨_, hcond⟩ := hj
  rw [hid, hmain, hfalse] at hcond
  simp at hcond

/-- Concrete run of C8 (amended): two instances, every probe fails; the
first instance is marked unhealthy and leaves the healthy pool. -/
theorem C8_witness :
    (({ id := "a", host := "ha", port := 80, weight := 1, url := mkUrl "ha" 80,
        registered_at := 0, last_health_check := none, healthy := true,
        active_connections := none } : Instance)
        ∈ ((LoadBalancer.init.register_instance "a" "ha" 80 1 0).register_instance
            "b" "hb" 81 1 0).instances
      ∧ (((LoadBalancer.init.register_instance "a" "ha" 80 1 0).register_instance
            "b" "hb" 81 1 0).instances.map (fun i => i.id)).Nodup)
    ∧ (dictGet (((LoadBalancer.init.register_instance "a" "ha" 80 1 0).register_instance
          "b" "hb" 81 1 0).health_check (fun _ => .failure) 9).health_status
          ({ id := "a", host := "ha", port := 80, weight := 1, url := mkUrl "ha" 80,
             registered_at := 0, last_health_check := none, healthy := true,
             active_connections := none } : Instance).id
        = some (probeOk ((fun _ => .failure)
            (({ id := "a", host := "ha", port := 80, weight := 1, url := mkUrl "ha" 80,
                registered_at := 0, last_health_check := none, healthy := true,
                active_connections := none } : Instance).url ++ "/health")))
       ∧ (probeOk ((fun _ => ProbeResult.failure)
            (({ id := "a", host := "ha", port := 80, weight := 1, url := mkUrl "ha" 80,
                registered_at := 0, last_health_check := none, healthy := true,
                active_connections := none } : Instance).url ++ "/health")) = false →
          ∀ j ∈ (((LoadBalancer.init.register_instance "a" "ha" 80 1 0).register_instance
              "b" "hb" 81 1 0).health_check (fun _ => .failure) 9).get_healthy_instances,
            j.id ≠ ({ id := "a", host := "ha", port := 80, weight := 1,
                      url := mkUrl "ha" 80, registered_at := 0,
                      last_health_check := none, healthy := true,
                      active_connections := none } : Instance).id)) :=
  ⟨⟨by decide, by decide⟩,
   C8_probe_healthy_iff_status_200
     ((LoadBalancer.init.register_instance "a" "ha" 80 1 0).register_instance
       "b" "hb" 81 1 0) (fun _ => .failure) 9
     { id := "a", host := "ha", port := 80, weight := 1, url := mkUrl "ha" 80,
       registered_at := 0, last_health_check := none, healthy := true,
       active_connections := none }
     (by decide) (by decide)⟩

/-! ## Rate limiter lemmas -/

theorem mem_zaddScore (l : List ℤ) (t a : ℤ) :
    a ∈ zaddScore l t ↔ a ∈ l ∨ a = t := by
  unfold zaddScore
  split
  · rename_i h
    exact ⟨Or.inl, fun x => x.elim id (fun he => he ▸ h)⟩
  · simp

theorem self_mem_zaddScore (l : List ℤ) (t : ℤ) : t ∈ zaddScore l t := by
  unfold zaddScore
  split
  · assumption
  · simp

/-- C4: the admission check first removes every recorded timestamp older
than `now − W` from the key's record (the code's `ZREMRANGEBYSCORE key 0
(now − W)`, which clears the whole closed interval), admits exactly when
the number of timestamps remaining in the window (`now − W < s`) is
strictly below the ceiling, and on admission appends the current timestamp
and resets the record's expiry to the window length; concretely, with
ceiling 3 and window 60, calls at times 0, 1, 2 are admitted, a call at
time 3 is rejected, and a call at time 61 — after the window has fully
elapsed — is admitted again.  The hypotheses say that recorded timestamps
are (epoch) timestamps, i.e. non-negative, and the window length is
non-negative. -/
theorem C4_rate_limiter_sliding_window (store : RLStore) (key : String)
    (now W : ℤ) (C : ℕ)
    (h0 : ∀ s ∈ (liveRecord store key now).scores, 0 ≤ s)
    (hW : 0 ≤ W) :
    (∀ s ∈ (liveRecord store key now).scores, s < now - W →
        ∀ r', dictGet (RateLimiter.is_allowed store key now W C).2 key = some r' →
          s ∉ r'.scores)
    ∧ ((RateLimiter.is_allowed store key now W C).1 = true ↔
        ((liveRecord store key now).scores.filter (fun s => now - W < s)).length < C)
    ∧ ((RateLimiter.is_allowed store key now W C).1 = true →
        ∃ r', dictGet (RateLimiter.is_allowed store key now W C).2 key = some r'
          ∧ now ∈ r'.scores ∧ r'.expires_at = some (now + W))
    ∧ RateLimiter.runCalls "k" 60 3 [] [0, 1, 2, 3, 61]
        = [true, true, true, false, true] := by
  set r := liveRecord store key now with hr
  set pruned := r.scores.filter (fun s => ¬ (0 ≤ s ∧ s ≤ now - W)) with hpruned
  have hsplit : RateLimiter.is_allowed store key now W C
      = (if C ≤ pruned.length then (false, dictSet store key ⟨pruned, r.expires_at⟩)
         else (true, dictSet store key ⟨zaddScore pruned now, some (now + W)⟩)) := rfl
  have hprf : pruned = r.scores.filter (fun s => now - W < s) := by
    rw [hpruned]
    refine List.filter_congr ?_
    intro x hx
    have hx0 := h0 x hx
    rw [decide_eq_decide]
    omega
  refine ⟨?_, ?_, ?_, by decide⟩
  · intro s hs hold r' hr'
    rw [hsplit] at hr'
    by_cases hcount : C ≤ pruned.length
    · rw [if_pos hcount, dictGet_dictSet_self] at hr'
      injection hr' with hr'
      subst hr'
      intro hmem
      rw [hprf, List.mem_filter] at hmem
      obtain ⟨_, hgt⟩ := hmem
      simp only [decide_eq_true_eq] at hgt
      omega
    · rw [if_neg hcount, dictGet_dictSet_self] at hr'
      injection hr' with hr'
      subst hr'
      intro hmem
      rw [mem_zaddScore] at hmem
      rcases hmem with hmem | heq
      · rw [hprf, List.mem_filter] at hmem
        obtain ⟨_, hgt⟩ := hmem
        simp only [decide_eq_true_eq] at hgt
        omega
      · omega
  · rw [hsplit]
    by_cases hcount : C ≤ pruned.length
    · rw [if_pos hcount]
      simp only [Bool.false_eq_true, false_iff, not_lt]
      rw [← hprf]
      exact hcount
    · rw [if_neg hcount]
      simp only [true_iff]
      rw [← hprf]
      omega
  · rw [hsplit]
    by_cases hcount : C ≤ pruned.length
    · rw [if_pos hcount]
      intro h
      exact absurd h (by simp)
    · rw [if_neg hcount]
      intro _
      exact ⟨⟨zaddScore pruned now, some (now + W)⟩, dictGet_dictSet_self _ _ _,
        self_mem_zaddScore _ _, rfl⟩

/-- Concrete run of C4: a record holding timestamps 50 and 90 with window
60 and ceiling 3, probed at time 100. -/
theorem C4_witness :
    ((∀ s ∈ (liveRecord [("k", ⟨[50, 90], some 160⟩)] "k" 100).scores, 0 ≤ s)
      ∧ (0 : ℤ) ≤ 60)
    ∧ ((∀ s ∈ (liveRecord [("k", ⟨[50, 90], some 160⟩)] "k" 100).scores,
          s < 100 - 60 →
          ∀ r', dictGet (RateLimiter.is_allowed [("k", ⟨[50, 90], some 160⟩)]
              "k" 100 60 3).2 "k" = some r' → s ∉ r'.scores)
       ∧ ((RateLimiter.is_allowed [("k", ⟨[50, 90], some 160⟩)] "k" 100 60 3).1 = true ↔
          ((liveRecord [("k", ⟨[50, 90], some 160⟩)] "k" 100).scores.filter
            (fun s => 100 - 60 < s)).length < 3)
       ∧ ((RateLimiter.is_allowed [("k", ⟨[50, 90], some 160⟩)] "k" 100 60 3).1 = true →
          ∃ r', dictGet (RateLimiter.is_allowed [("k", ⟨[50, 90], some 160⟩)]
              "k" 100 60 3).2 "k" = some r'
            ∧ (100 : ℤ) ∈ r'.scores ∧ r'.expires_at = some (100 + 60))
       ∧ RateLimiter.runCalls "k" 60 3 [] [0, 1, 2, 3, 61]
          = [true, true, true, false, true]) :=
  ⟨⟨by decide, by decide⟩,
   C4_rate_limiter_sliding_window [("k", ⟨[50, 90], some 160⟩)] "k" 100 60 3
     (by decide) (by decide)⟩

/-! ## Session / cache TTL theorems -/

/-- C9: writing a key with a positive TTL `t` makes an immediate read
return the value, makes any read from `t` seconds onward a miss, and
(unconditionally) sets the entry's remaining TTL to exactly `t` — so every
write refreshes the TTL to the configured value; the same holds for the
session store under its `session:` key prefix. -/
theorem C9_ttl_write_read_expiry {α : Type} (store : List (String × KVEntry α))
    (k sid : String) (v w : α) (t now now' : ℤ)
    (ht : 0 < t) (helapsed : now + t ≤ now') :
    CacheManager.get (CacheManager.set store k v t now) k now = some v
    ∧ CacheManager.get (CacheManager.set store k v t now) k now' = none
    ∧ dictGet (CacheManager.set store k v t now) k = some ⟨v, now + t⟩
    ∧ SessionManager.get_session (SessionManager.create_session store sid w t now)
        sid now = some w
    ∧ SessionManager.get_session (SessionManager.create_session store sid w t now)
        sid now' = none
    ∧ dictGet (SessionManager.create_session store sid w t now) ("session:" ++ sid)
        = some ⟨w, now + t⟩ := by
  have hlt : now < now + t := by omega
  have hge : ¬ now' < now + t := by omega
  refine ⟨?_, ?_, dictGet_dictSet_self _ _ _, ?_, ?_, dictGet_dictSet_self _ _ _⟩
  · simp [CacheManager.get, CacheManager.set, kvGet, kvSetex, dictGet_dictSet_self, hlt]
  · simp [CacheManager.get, CacheManager.set, kvGet, kvSetex, dictGet_dictSet_self, hge]
  · simp [SessionManager.get_session, SessionManager.create_session, kvGet, kvSetex,
      dictGet_dictSet_self, hlt]
  · simp [SessionManager.get_session, SessionManager.create_session, kvGet, kvSetex,
      dictGet_dictSet_self, hge]

/-- Concrete run of C9: `set("k", "v", ttl=1)` at time 0, read at times 0
and 2; same through the session store. -/
theorem C9_witness :
    ((0 : ℤ) < 1 ∧ (0 : ℤ) + 1 ≤ 2)
    ∧ (CacheManager.get (CacheManager.set ([] : List (String × KVEntry String))
          "k" "v" 1 0) "k" 0 = some "v"
       ∧ CacheManager.get (CacheManager.set ([] : List (String × KVEntry String))
          "k" "v" 1 0) "k" 2 = none
       ∧ dictGet (CacheManager.set ([] : List (String × KVEntry String)) "k" "v" 1 0)
          "k" = some ⟨"v", 0 + 1⟩
       ∧ SessionManager.get_session (SessionManager.create_session
          ([] : List (String × KVEntry String)) "s" "d" 1 0) "s" 0 = some "d"
       ∧ SessionManager.get_session (SessionManager.create_session
          ([] : List (String × KVEntry String)) "s" "d" 1 0) "s" 2 = none
       ∧ dictGet (SessionManager.create_session ([] : List (String × KVEntry String))
          "s" "d" 1 0) ("session:" ++ "s") = some ⟨"d", 0 + 1⟩) :=
  ⟨⟨by decide, by decide⟩,
   C9_ttl_write_read_expiry ([] : List (String × KVEntry String)) "k" "s" "v" "d" 1 0 2
     (by decide) (by decide)⟩

/-! ## Aggregate health status -/

/-- C7 names the intended severity order, but the code diverges twice:
(i) when `DatabasePool.health_check()` merely *returns* `False` (database
unreachable) the report's `checks.database` is `False` yet the status
stays `"healthy"` — only an exception from the database section sets
`"unhealthy"`; (ii) the memory check runs last and overwrites
unconditionally, so a failed store check plus >90% memory yields
`"degraded"` instead of `"unhealthy"`.  The final two conjuncts record the
cases where `"unhealthy"` does come out as claimed. -/
theorem C7_status_divergence :
    aggregateStatus .failed true true none = "healthy"
    ∧ databaseCheckValue .failed = false
    ∧ aggregateStatus .ok true false (some ⟨8, 1, 95⟩) = "degraded"
    ∧ (95 : ℚ) > 90
    ∧ aggregateStatus .raised true true none = "unhealthy"
    ∧ aggregateStatus .ok true false none = "unhealthy"
    ∧ aggregateStatus .ok true true (some ⟨8, 1, 95⟩) = "degraded"
    ∧ aggregateStatus .ok true true (some ⟨8, 4, 50⟩) = "healthy" := by
  decide

/-- Concrete run of C10: threshold 2, a failure, then a success (which must
not reset anything), then a second failure trips the breaker. -/
theorem C10_witness :
    (countFails [((0 : ℤ), Outcome.err), ((1 : ℤ), Outcome.ok)] + 1 = 2)
    ∧ ((∀ (cb : CircuitBreaker) (now : ℤ), cb.state = .closed →
          cb.call now .ok = (.passed .ok, cb))
       ∧ (CircuitBreaker.applyCalls (CircuitBreaker.init 2 60)
            ([((0 : ℤ), Outcome.err), ((1 : ℤ), Outcome.ok)] ++ [((5 : ℤ), .err)])).state
           = .opened
       ∧ (CircuitBreaker.applyCalls (CircuitBreaker.init 2 60)
            ([((0 : ℤ), Outcome.err), ((1 : ℤ), Outcome.ok)] ++ [((5 : ℤ), .err)])).failure_count
           = 2) :=
  ⟨by decide,
   C10_closed_success_frame_and_interleaved_trip 2 60
     [((0 : ℤ), Outcome.err), ((1 : ℤ), Outcome.ok)] 5 (by decide)⟩

end ScalingModel
